import Mathlib

/-!
Embedding of the resy-bot reservation engine: the retry orchestration in
src/resy_bot/manager.py, the search-space helpers, the single-shot booking
call, the drop-time gate, and the watchlist coordinator in
src/resy_bot/watchlist.py. Calendar dates are day numbers (Int); adding one
calendar day is adding 1. Wall-clock instants are seconds (Int).
-/

/-- Modelled from the spec: models.py is not under src/. Fields are the ones
read by manager.py, watchlist.py, main.py and the tests: target identifier,
primary party size, primary date, preferred time, optional days-in-advance
relative mode, optional date range, optional ordered fallback party sizes. -/
structure ReservationRequest where
  venue_id : Nat
  party_size : Nat
  ideal_date : Int
  ideal_hour : Nat
  ideal_minute : Nat
  days_in_advance : Option Nat
  date_range : Option Nat
  fallback_party_sizes : Option (List Nat)
deriving DecidableEq

/-- Modelled from the spec: models.py is not under src/; the retry policy is a
fixed inter-attempt delay plus a bounded retry count. -/
structure ReservationRetriesConfig where
  seconds_between_retries : Int
  n_retries : Nat
deriving DecidableEq

/-- Modelled from the spec: models.py is not under src/; notification sink
reference read by notifications.py. -/
structure NotificationsConfig where
  enabled : Bool
  email : String
deriving DecidableEq

/-- Modelled from the spec: models.py is not under src/; wraps a request with
an expected release hour and minute (local wall clock, today). -/
structure TimedReservationRequest where
  reservation_request : ReservationRequest
  expected_drop_hour : Nat
  expected_drop_minute : Nat
  notifications : Option NotificationsConfig
deriving DecidableEq

/-- Modelled from the spec: models.py is not under src/; the target_date
property computes the date relative to now in days-in-advance mode and is the
explicit ideal date otherwise (tests/test_manager.py exercises both modes). -/
def target_date (r : ReservationRequest) (today : Int) : Int :=
  match r.days_in_advance with
  | some d => today + (d : Int)
  | none => r.ideal_date

/-- Embeds ResyManager._get_dates_to_try (manager.py lines 89-92):
n_dates = date_range or 1 (Python falsiness: None and 0 both yield 1) and the
result is [target + timedelta(days=i) for i in range(n_dates)]. -/
def get_dates_to_try (r : ReservationRequest) (today : Int) : List Int :=
  let target := target_date r today
  let n_dates := match r.date_range with
    | none => 1
    | some n => if n = 0 then 1 else n
  (List.range n_dates).map (fun (i : Nat) => target + (i : Int))

/-- Embeds ResyManager._get_party_sizes_to_try (manager.py lines 94-98):
sizes = [party_size], extended by fallback_party_sizes when that list is
present and non-empty (Python truthiness of the list). -/
def get_party_sizes_to_try (r : ReservationRequest) : List Nat :=
  let sizes := [r.party_size]
  match r.fallback_party_sizes with
  | some l => if l.isEmpty then sizes else sizes ++ l
  | none => sizes

/-- Embeds ResyManager._with_overrides (manager.py lines 100-109): pydantic
copy(update=...) builds a new value with ideal_date, days_in_advance and
party_size replaced and every other field kept. -/
def with_overrides (r : ReservationRequest) (d : Int) (p : Nat) : ReservationRequest :=
  { r with ideal_date := d, days_in_advance := none, party_size := p }

/-- Outcome of one single-shot acquisition attempt, as classified by the
try/except arms of make_reservation_with_retries: success returns a token,
NoSlotsError continues, ResyServerError aborts the pass, anything else
propagates (errors.py is not under src/; the classes are modelled as tags). -/
inductive AttemptOutcome where
  | success (token : String)
  | noSlots
  | serverError
  | otherError
deriving DecidableEq

/-- Observable event of one run of make_reservation_with_retries: an attempt
at a (date, party size) combination with its outcome, the fixed server-error
backoff sleep, or the inter-pass sleep that accompanies each counted pass. -/
inductive Event where
  | attempt (d : Int) (p : Nat) (o : AttemptOutcome)
  | serverWait
  | interPassWait
deriving DecidableEq

/-- How one pass over the date-by-party-size sequence ended. -/
inductive PassSignal where
  | completed
  | success (token : String)
  | serverErr
  | otherErr
deriving DecidableEq

/-- Final outcome of make_reservation_with_retries: a booking token, the
ExhaustedRetriesError raise, a propagated unclassified error, or fuel ran out
(the Python loop has no fuel; outOfFuel marks an under-supplied model run). -/
inductive RunOutcome where
  | ok (token : String)
  | exhaustedRetries
  | otherError
  | outOfFuel
deriving DecidableEq

/-- Inner loop of a pass (manager.py lines 123-140): for one date, try each
party size in order; NoSlotsError continues to the next size, success or
ResyServerError or any other error stops the inner loop. The oracle gives the
outcome of the j-th call to make_reservation overall (the tests drive the
code the same way, via a side_effect sequence). Returns the events, the next
call index, and the signal. -/
def passSizes (oracle : Nat → AttemptOutcome) (d : Int) (k : Nat) :
    List Nat → List Event × Nat × PassSignal
  | [] => ([], k, PassSignal.completed)
  | p :: rest =>
    match oracle k with
    | AttemptOutcome.success tok =>
        ([Event.attempt d p (AttemptOutcome.success tok)], k + 1, PassSignal.success tok)
    | AttemptOutcome.noSlots =>
        let r := passSizes oracle d (k + 1) rest
        (Event.attempt d p AttemptOutcome.noSlots :: r.1, r.2.1, r.2.2)
    | AttemptOutcome.serverError =>
        ([Event.attempt d p AttemptOutcome.serverError], k + 1, PassSignal.serverErr)
    | AttemptOutcome.otherError =>
        ([Event.attempt d p AttemptOutcome.otherError], k + 1, PassSignal.otherErr)

/-- Outer loop of a pass (manager.py lines 120-140): iterate the dates; the
`if server_error: break` check at the top of each date iteration abandons the
rest of the pass after a server error, and success or an unclassified error
also stops the pass. -/
def passDates (oracle : Nat → AttemptOutcome) (k : Nat) :
    List Int → List Nat → List Event × Nat × PassSignal
  | [], _ => ([], k, PassSignal.completed)
  | d :: rest, sizes =>
    let r := passSizes oracle d k sizes
    match r.2.2 with
    | PassSignal.completed =>
        let r2 := passDates oracle r.2.1 rest sizes
        (r.1 ++ r2.1, r2.2.1, r2.2.2)
    | s => (r.1, r.2.1, s)

/-- The while loop of make_reservation_with_retries (manager.py lines
117-152): while retries < n_retries run a pass; a completed pass increments
retries and sleeps the inter-pass delay; a server-error pass sleeps the
server backoff and restarts without incrementing retries; success returns;
an unclassified error propagates; when the condition fails the
ExhaustedRetriesError is raised. fuel bounds the number of passes the model
will unfold (the Python loop is unbounded across server-error restarts). -/
def retryLoop (oracle : Nat → AttemptOutcome) (nRetries : Nat) (dates : List Int)
    (sizes : List Nat) : Nat → Nat → Nat → List Event × RunOutcome
  | 0, _, retries =>
    if retries < nRetries then ([], RunOutcome.outOfFuel)
    else ([], RunOutcome.exhaustedRetries)
  | fuel + 1, k, retries =>
    if retries < nRetries then
      let r := passDates oracle k dates sizes
      match r.2.2 with
      | PassSignal.success tok => (r.1, RunOutcome.ok tok)
      | PassSignal.otherErr => (r.1, RunOutcome.otherError)
      | PassSignal.serverErr =>
          let rest := retryLoop oracle nRetries dates sizes fuel r.2.1 retries
          (r.1 ++ Event.serverWait :: rest.1, rest.2)
      | PassSignal.completed =>
          let rest := retryLoop oracle nRetries dates sizes fuel r.2.1 (retries + 1)
          (r.1 ++ Event.interPassWait :: rest.1, rest.2)
    else ([], RunOutcome.exhaustedRetries)

/-- Embeds ResyManager.make_reservation_with_retries (manager.py lines
111-152): precompute the date and party-size sequences once, then run the
retry loop from call index 0 and retries = 0. -/
def make_reservation_with_retries (oracle : Nat → AttemptOutcome)
    (cfg : ReservationRetriesConfig) (r : ReservationRequest) (today : Int)
    (fuel : Nat) : List Event × RunOutcome :=
  retryLoop oracle cfg.n_retries (get_dates_to_try r today) (get_party_sizes_to_try r)
    fuel 0 0

/-- Oracle built from a finite outcome script, as the tests build
make_reservation mocks from a side_effect list; past the end it reports
noSlots. -/
def seqOracle (l : List AttemptOutcome) (k : Nat) : AttemptOutcome :=
  l.getD k AttemptOutcome.noSlots

/-- The date-major combination sequence of one pass: all party sizes for a
date before the next date. -/
def combos (dates : List Int) (sizes : List Nat) : List (Int × Nat) :=
  dates.flatMap (fun d => sizes.map (fun p => (d, p)))

/-- The (date, party size) pairs actually attempted, read off an event list. -/
def attemptPairs (evs : List Event) : List (Int × Nat) :=
  evs.filterMap (fun e =>
    match e with
    | Event.attempt d p _ => some (d, p)
    | _ => none)

/-- Events of one full all-noSlots pass. -/
def passEvents (dates : List Int) (sizes : List Nat) : List Event :=
  dates.flatMap (fun d => sizes.map (fun p => Event.attempt d p AttemptOutcome.noSlots))

/-- Whether an event is an acquisition attempt. -/
def isAttemptEvent : Event → Bool
  | Event.attempt _ _ _ => true
  | _ => false

/-- Number of acquisition attempts in an event list. -/
def countAttempts (evs : List Event) : Nat :=
  (evs.filter isAttemptEvent).length

/-- Whether an event is the inter-pass sleep that accompanies one counted
full pass. -/
def isInterPassEvent : Event → Bool
  | Event.interPassWait => true
  | _ => false

/-- Number of counted full passes in an event list (each counted pass ends
with exactly one inter-pass sleep). -/
def countInterPass (evs : List Event) : Nat :=
  (evs.filter isInterPassEvent).length

/-- Modelled from the spec: api_access.py is not under src/; the transport can
fail with a distinguishable upstream-unavailable error or another error, and
a no-candidates result is an empty list, never an error. -/
inductive ApiErr where
  | serverError
  | other (msg : String)
deriving DecidableEq

/-- What make_reservation can raise: its own NoSlotsError, or a propagated
transport error. -/
inductive MgrErr where
  | noSlots
  | api (e : ApiErr)
deriving DecidableEq

/-- Modelled from the spec: models.py is not under src/; slot shape read by
the tests (slot.config.token). -/
structure SlotConfig where
  token : String
deriving DecidableEq

/-- Modelled from the spec: models.py is not under src/. -/
structure Slot where
  config : SlotConfig
deriving DecidableEq

/-- Modelled from the spec: models.py is not under src/; find request shape
asserted by tests/test_manager.py. -/
structure FindRequestBody where
  venue_id : Nat
  party_size : Nat
  day : Int
deriving DecidableEq

/-- Modelled from the spec: models.py is not under src/. -/
structure DetailsRequestBody where
  config_id : String
  day : Int
  party_size : Nat
deriving DecidableEq

/-- Modelled from the spec: models.py is not under src/. -/
structure PaymentMethod where
  id : Nat
deriving DecidableEq

/-- Modelled from the spec: models.py is not under src/. -/
structure BookRequestBody where
  book_token : String
  struct_payment_method : PaymentMethod
deriving DecidableEq

/-- Modelled from the spec: models.py is not under src/; the details response
carries the booking token value. -/
structure BookToken where
  value : String
deriving DecidableEq

/-- Modelled from the spec: models.py is not under src/. -/
structure DetailsResponseBody where
  book_token : BookToken
deriving DecidableEq

/-- Modelled from the spec: models.py is not under src/; credential fields
read by manager.py, watchlist.py and notifications.py. -/
structure ResyConfig where
  payment_method_id : Nat
  email : String
  gmail_app_password : String
deriving DecidableEq

/-- Modelled from the spec: model_builders.py is not under src/; shape fixed
by tests/test_manager.py (venue id, party size, target day). -/
def build_find_request_body (r : ReservationRequest) (today : Int) : FindRequestBody :=
  { venue_id := r.venue_id, party_size := r.party_size, day := target_date r today }

/-- Modelled from the spec: model_builders.py is not under src/; shape fixed
by tests/test_manager.py (selected slot's config token, day, party size). -/
def build_get_slot_details_body (r : ReservationRequest) (today : Int) (s : Slot) :
    DetailsRequestBody :=
  { config_id := s.config.token, day := target_date r today, party_size := r.party_size }

/-- Modelled from the spec: model_builders.py is not under src/; shape fixed
by tests/test_manager.py (book token value, payment method from config). -/
def build_book_request_body (t : DetailsResponseBody) (c : ResyConfig) : BookRequestBody :=
  { book_token := t.book_token.value
    struct_payment_method := { id := c.payment_method_id } }

/-- The transport collaborator as a record of fallible calls (api_access.py is
not under src/; per the spec each call is a stateless request issuer). -/
structure ApiAccess where
  find_booking_slots : FindRequestBody → Except ApiErr (List Slot)
  get_booking_token : DetailsRequestBody → Except ApiErr DetailsResponseBody
  book_slot : BookRequestBody → Except ApiErr String

/-- The selector collaborator: per the spec a pure function returning one
candidate (selectors.py is not under src/). -/
def Selector : Type := List Slot → ReservationRequest → Slot

/-- Collaborator call made by make_reservation, recorded with its argument so
that invocation order is observable. -/
inductive CallEvent where
  | findCall (b : FindRequestBody)
  | selectCall (slots : List Slot) (r : ReservationRequest)
  | detailsCall (b : DetailsRequestBody)
  | bookCall (b : BookRequestBody)
deriving DecidableEq

/-- Embeds ResyManager.make_reservation (manager.py lines 62-87): find slots;
raise NoSlotsError when the list is empty; otherwise select, fetch the
booking token, book, and return the resulting token. Transport errors
propagate. Returns the ordered collaborator-call trace with the outcome. -/
def make_reservation (api : ApiAccess) (sel : Selector) (c : ResyConfig)
    (today : Int) (r : ReservationRequest) : List CallEvent × Except MgrErr String :=
  let body := build_find_request_body r today
  match api.find_booking_slots body with
  | Except.error e => ([CallEvent.findCall body], Except.error (MgrErr.api e))
  | Except.ok slots =>
    if slots.length = 0 then
      ([CallEvent.findCall body], Except.error MgrErr.noSlots)
    else
      let selected_slot := sel slots r
      let details_request := build_get_slot_details_body r today selected_slot
      match api.get_booking_token details_request with
      | Except.error e =>
          ([CallEvent.findCall body, CallEvent.selectCall slots r,
            CallEvent.detailsCall details_request], Except.error (MgrErr.api e))
      | Except.ok token =>
        let booking_request := build_book_request_body token c
        match api.book_slot booking_request with
        | Except.error e =>
            ([CallEvent.findCall body, CallEvent.selectCall slots r,
              CallEvent.detailsCall details_request,
              CallEvent.bookCall booking_request], Except.error (MgrErr.api e))
        | Except.ok resy_token =>
            ([CallEvent.findCall body, CallEvent.selectCall slots r,
              CallEvent.detailsCall details_request,
              CallEvent.bookCall booking_request], Except.ok resy_token)

/-- Modelled from the spec: EARLY_START_SECONDS is imported by manager.py but
absent from src/resy_bot/constants.py; the fixed early-start offset is 2
seconds, as fixed by tests/test_manager.py test_get_drop_time. -/
def EARLY_START_SECONDS : Int := 2

/-- The instant "today at hour:minute" for a naive wall-clock timeline in
seconds: the start of the day containing now, plus the time of day. -/
def todayAt (now : Int) (hour minute : Nat) : Int :=
  (now - now.emod 86400) + (hour : Int) * 3600 + (minute : Int) * 60

/-- Embeds ResyManager._get_drop_time (manager.py lines 154-162): today (the
day of now) at the expected drop hour and minute, minus the early-start
offset. -/
def get_drop_time (r : TimedReservationRequest) (now : Int) : Int :=
  todayAt now r.expected_drop_hour r.expected_drop_minute - EARLY_START_SECONDS

/-- The busy-wait loop of make_reservation_at_opening_time (manager.py lines
173-183): sample the clock; while the sample is before the drop time keep
looping, otherwise proceed. clock j is the j-th sample of datetime.now();
the result is the sample index at which the retry orchestration starts, or
none when fuel runs out before the deadline is reached. -/
def openingLoopAux (clock : Nat → Int) (drop : Int) : Nat → Nat → Option Nat
  | 0, _ => none
  | fuel + 1, j => if clock j < drop then openingLoopAux clock drop fuel (j + 1) else some j

/-- Embeds ResyManager.make_reservation_at_opening_time (manager.py lines
164-183) up to the hand-off: the drop time is computed from the clock sample
at invocation, then the loop waits for a sample at or past it. -/
def opening_time_start_index (clock : Nat → Int) (r : TimedReservationRequest)
    (fuel : Nat) : Option Nat :=
  openingLoopAux clock (get_drop_time r (clock 0)) fuel 0

/-- Modelled from the spec: models.py is not under src/; a watchlist entry is
an optional human tag plus the timed request data (watchlist.py reads name,
reservation_request, notifications and calls to_timed_request). -/
structure WatchlistEntry where
  name : Option String
  reservation_request : ReservationRequest
  expected_drop_hour : Nat
  expected_drop_minute : Nat
  notifications : Option NotificationsConfig
deriving DecidableEq

/-- Modelled from the spec: models.py is not under src/; a watchlist is an
ordered collection of entries. -/
structure Watchlist where
  venues : List WatchlistEntry
deriving DecidableEq

/-- Modelled from the spec: WatchlistEntry.to_timed_request wraps the entry
data as a TimedReservationRequest (models.py is not under src/). -/
def WatchlistEntry.to_timed_request (e : WatchlistEntry) : TimedReservationRequest :=
  { reservation_request := e.reservation_request
    expected_drop_hour := e.expected_drop_hour
    expected_drop_minute := e.expected_drop_minute
    notifications := e.notifications }

/-- The human tag used in a worker's logs and notifications (watchlist.py
line 17): the entry name, or "venue " plus the venue id. -/
def venue_tag_of (e : WatchlistEntry) : String :=
  match e.name with
  | some s => s
  | none => "venue " ++ toString e.reservation_request.venue_id

/-- One notify_booking_result dispatch, tagged with the worker's outcome. -/
structure Notification where
  success : Bool
  venue_tag : String
deriving DecidableEq

/-- Embeds _run_single_venue (watchlist.py lines 12-59): run the pipeline on
the entry's timed request; a token dispatches a success notification, any
error is caught by the except arm and dispatches a failure notification; in
both arms exactly one notification for this entry. The pipeline (the
manager's make_reservation_at_opening_time) is abstracted as a function to
either an error description or a token. -/
def run_single_venue (pipeline : TimedReservationRequest → Except String String)
    (e : WatchlistEntry) : Notification :=
  match pipeline e.to_timed_request with
  | Except.ok _ => { success := true, venue_tag := venue_tag_of e }
  | Except.error _ => { success := false, venue_tag := venue_tag_of e }

/-- Embeds run_watchlist (watchlist.py lines 62-82): one worker per entry,
each running _run_single_venue on its own entry with no shared mutable
state; the coordinator joins every worker, so the result collects every
worker's notification, one per entry, in entry order. -/
def run_watchlist (pipeline : TimedReservationRequest → Except String String)
    (w : Watchlist) : List Notification :=
  w.venues.map (run_single_venue pipeline)

/-- The event trace of m consecutive counted all-noSlots passes: each is one
full pass followed by its inter-pass sleep. -/
def repeatedPasses (dates : List Int) (sizes : List Nat) (m : Nat) : List Event :=
  List.flatten (List.replicate m (passEvents dates sizes ++ [Event.interPassWait]))

/-- A concrete request with one date and one party size: no date range, no
fallbacks (the default factory shape in the tests). -/
def reqSingle : ReservationRequest :=
  { venue_id := 1, party_size := 2, ideal_date := 0, ideal_hour := 19, ideal_minute := 0,
    days_in_advance := none, date_range := none, fallback_party_sizes := none }

/-- A concrete request with one date and party sizes [4, 2]. -/
def reqTwoSizes : ReservationRequest :=
  { venue_id := 1, party_size := 4, ideal_date := 0, ideal_hour := 19, ideal_minute := 0,
    days_in_advance := none, date_range := none, fallback_party_sizes := some [2] }

/-- A concrete request with a three-day date range. -/
def reqRange : ReservationRequest :=
  { venue_id := 1, party_size := 2, ideal_date := 10, ideal_hour := 19, ideal_minute := 0,
    days_in_advance := none, date_range := some 3, fallback_party_sizes := none }

/-- A concrete timed request expecting the drop today at 00:01. -/
def timedA : TimedReservationRequest :=
  { reservation_request := reqSingle, expected_drop_hour := 0, expected_drop_minute := 1,
    notifications := none }

/-- A concrete timed request expecting the drop today at 00:00. -/
def timedB : TimedReservationRequest :=
  { reservation_request := reqSingle, expected_drop_hour := 0, expected_drop_minute := 0,
    notifications := none }

/-- A concrete slot. -/
def slotW : Slot := { config := { token := "cfgtok" } }

/-- A concrete transport whose calls all succeed. -/
def apiW : ApiAccess :=
  { find_booking_slots := fun _ => Except.ok [slotW]
    get_booking_token := fun _ => Except.ok { book_token := { value := "btok" } }
    book_slot := fun _ => Except.ok "resytok" }

/-- A concrete selector returning the first candidate. -/
def selW : Selector := fun slots _ => slots.headD slotW

/-- A concrete credentials config. -/
def configW : ResyConfig := { payment_method_id := 7, email := "a@b", gmail_app_password := "pw" }

theorem passSizes_noSlots (d : Int) :
    ∀ (sizes : List Nat) (k : Nat),
    passSizes (fun _ => AttemptOutcome.noSlots) d k sizes =
      (sizes.map (fun p => Event.attempt d p AttemptOutcome.noSlots),
       k + sizes.length, PassSignal.completed) := by
  intro sizes
  induction sizes with
  | nil => intro k; simp [passSizes]
  | cons p rest ih =>
    intro k
    simp only [passSizes, ih (k + 1), List.map_cons, List.length_cons, Prod.mk.injEq]
    refine ⟨trivial, ?_, trivial⟩
    omega

theorem passDates_noSlots (sizes : List Nat) :
    ∀ (dates : List Int) (k : Nat),
    passDates (fun _ => AttemptOutcome.noSlots) k dates sizes =
      (passEvents dates sizes, k + dates.length * sizes.length, PassSignal.completed) := by
  intro dates
  induction dates with
  | nil => intro k; simp [passDates, passEvents]
  | cons d rest ih =>
    intro k
    simp only [passDates, passSizes_noSlots d sizes k, ih (k + sizes.length),
      passEvents, List.flatMap_cons, List.length_cons, Prod.mk.injEq]
    refine ⟨trivial, ?_, trivial⟩
    rw [Nat.add_one_mul]
    omega

theorem retryLoop_stop (oracle : Nat → AttemptOutcome) (n : Nat) (dates : List Int)
    (sizes : List Nat) (fuel k retries : Nat) (h : ¬ retries < n) :
    retryLoop oracle n dates sizes fuel k retries = ([], RunOutcome.exhaustedRetries) := by
  cases fuel with
  | zero => simp [retryLoop, h]
  | succ fuel => simp [retryLoop, h]

theorem retryLoop_allNoSlots (n : Nat) (dates : List Int) (sizes : List Nat) :
    ∀ (fuel retries k : Nat), retries ≤ n → n - retries ≤ fuel →
    retryLoop (fun _ => AttemptOutcome.noSlots) n dates sizes fuel k retries =
      (repeatedPasses dates sizes (n - retries), RunOutcome.exhaustedRetries) := by
  intro fuel
  induction fuel with
  | zero =>
    intro retries k h1 h2
    have hr : retries = n := by omega
    subst hr
    simp [retryLoop, repeatedPasses]
  | succ fuel ih =>
    intro retries k h1 h2
    by_cases hlt : retries < n
    · have hm : n - retries = (n - (retries + 1)) + 1 := by omega
      rw [hm]
      have hrec := ih (retries + 1) (k + dates.length * sizes.length) (by omega) (by omega)
      simp only [retryLoop, if_pos hlt, passDates_noSlots, hrec, repeatedPasses,
        List.replicate_succ, List.flatten_cons]
      simp
    · have hr : retries = n := by omega
      subst hr
      simp [retryLoop_stop _ _ _ _ _ _ _ hlt, repeatedPasses]

theorem repeatedPasses_succ (dates : List Int) (sizes : List Nat) (m : Nat) :
    repeatedPasses dates sizes (m + 1) =
      (passEvents dates sizes ++ [Event.interPassWait]) ++ repeatedPasses dates sizes m := by
  simp [repeatedPasses, List.replicate_succ]

theorem countAttempts_append (a b : List Event) :
    countAttempts (a ++ b) = countAttempts a + countAttempts b := by
  simp [countAttempts, List.filter_append]

theorem countInterPass_append (a b : List Event) :
    countInterPass (a ++ b) = countInterPass a + countInterPass b := by
  simp [countInterPass, List.filter_append]

theorem countAttempts_attempt_map (d : Int) (o : AttemptOutcome) :
    ∀ sizes : List Nat,
    countAttempts (sizes.map (fun p => Event.attempt d p o)) = sizes.length := by
  intro sizes
  induction sizes with
  | nil => simp [countAttempts]
  | cons p rest ih => simp [countAttempts, isAttemptEvent] at ih ⊢; omega

theorem countInterPass_attempt_map (d : Int) (o : AttemptOutcome) :
    ∀ sizes : List Nat,
    countInterPass (sizes.map (fun p => Event.attempt d p o)) = 0 := by
  intro sizes
  induction sizes with
  | nil => simp [countInterPass]
  | cons p rest ih => simp [countInterPass, isInterPassEvent] at ih ⊢

theorem countAttempts_passEvents (sizes : List Nat) :
    ∀ dates : List Int,
    countAttempts (passEvents dates sizes) = dates.length * sizes.length := by
  intro dates
  induction dates with
  | nil => simp [passEvents, countAttempts]
  | cons d rest ih =>
    simp only [passEvents, List.flatMap_cons] at ih ⊢
    rw [countAttempts_append, countAttempts_attempt_map, ih, List.length_cons,
      Nat.add_one_mul]
    omega

theorem countInterPass_passEvents (sizes : List Nat) :
    ∀ dates : List Int, countInterPass (passEvents dates sizes) = 0 := by
  intro dates
  induction dates with
  | nil => simp [passEvents, countInterPass]
  | cons d rest ih =>
    simp only [passEvents, List.flatMap_cons] at ih ⊢
    rw [countInterPass_append, countInterPass_attempt_map, ih]

theorem countAttempts_repeatedPasses (dates : List Int) (sizes : List Nat) :
    ∀ m : Nat,
    countAttempts (repeatedPasses dates sizes m) = m * (dates.length * sizes.length) := by
  intro m
  induction m with
  | zero => simp [repeatedPasses, countAttempts]
  | succ m ih =>
    rw [repeatedPasses_succ, countAttempts_append, countAttempts_append, ih,
      countAttempts_passEvents, Nat.add_one_mul]
    simp [countAttempts, isAttemptEvent]
    ring

theorem countInterPass_repeatedPasses (dates : List Int) (sizes : List Nat) :
    ∀ m : Nat, countInterPass (repeatedPasses dates sizes m) = m := by
  intro m
  induction m with
  | zero => simp [repeatedPasses, countInterPass]
  | succ m ih =>
    rw [repeatedPasses_succ, countInterPass_append, countInterPass_append, ih,
      countInterPass_passEvents]
    simp [countInterPass, isInterPassEvent]
    omega

/-- C1: for every retry policy with n_retries = n > 0, if every single-shot
attempt on every pass fails with NoSlotsError, make_reservation_with_retries
performs exactly n full passes over the date-by-party-size sequence (the
trace is exactly n counted passes, so there is no (n+1)-th pass and no
returned token) and then raises ExhaustedRetriesError; the attempt count is
exactly n times the number of (date, party size) combinations. -/
theorem retries_exhausted_after_n_passes (cfg : ReservationRetriesConfig)
    (r : ReservationRequest) (today : Int) (fuel : Nat)
    (hn : 0 < cfg.n_retries) (hf : cfg.n_retries ≤ fuel) :
    make_reservation_with_retries (fun _ => AttemptOutcome.noSlots) cfg r today fuel =
      (repeatedPasses (get_dates_to_try r today) (get_party_sizes_to_try r) cfg.n_retries,
       RunOutcome.exhaustedRetries) ∧
    countInterPass
      (make_reservation_with_retries (fun _ => AttemptOutcome.noSlots) cfg r today fuel).1 =
      cfg.n_retries ∧
    countAttempts
      (make_reservation_with_retries (fun _ => AttemptOutcome.noSlots) cfg r today fuel).1 =
      cfg.n_retries *
        ((get_dates_to_try r today).length * (get_party_sizes_to_try r).length) := by
  have h := retryLoop_allNoSlots cfg.n_retries (get_dates_to_try r today)
    (get_party_sizes_to_try r) fuel 0 0 (by omega) (by omega)
  simp only [Nat.sub_zero] at h
  refine ⟨?_, ?_, ?_⟩
  · simpa [make_reservation_with_retries] using h
  · simp [make_reservation_with_retries, h, countInterPass_repeatedPasses]
  · simp [make_reservation_with_retries, h, countAttempts_repeatedPasses]

/-- Witness for C1 at a concrete policy (n_retries = 5) and request. -/
theorem retries_exhausted_after_n_passes_witness :
    (0 : Nat) < 5 ∧ (5 : Nat) ≤ 5 ∧
    make_reservation_with_retries (fun _ => AttemptOutcome.noSlots)
        { seconds_between_retries := 1, n_retries := 5 } reqSingle 0 5 =
      (repeatedPasses (get_dates_to_try reqSingle 0) (get_party_sizes_to_try reqSingle) 5,
       RunOutcome.exhaustedRetries) :=
  ⟨by decide, by decide,
   (retries_exhausted_after_n_passes
      { seconds_between_retries := 1, n_retries := 5 } reqSingle 0 5
      (by decide) (by decide)).1⟩

theorem passSizes_pairs (oracle : Nat → AttemptOutcome) (d : Int) :
    ∀ (sizes : List Nat) (k : Nat),
    ∃ t, attemptPairs (passSizes oracle d k sizes).1 ++ t = sizes.map (fun p => (d, p)) ∧
      ((passSizes oracle d k sizes).2.2 = PassSignal.completed → t = []) := by
  intro sizes
  induction sizes with
  | nil => intro k; exact ⟨[], by simp [passSizes, attemptPairs]⟩
  | cons p rest ih =>
    intro k
    rcases h : oracle k with tok | _ | _ | _
    · exact ⟨rest.map (fun p => (d, p)), by simp [passSizes, h, attemptPairs]⟩
    · obtain ⟨t, ht, hc⟩ := ih (k + 1)
      refine ⟨t, ?_, ?_⟩
      · simp only [passSizes, h, attemptPairs, List.filterMap_cons, List.map_cons]
        simpa [attemptPairs] using ht
      · intro hsig
        apply hc
        simpa [passSizes, h] using hsig
    · exact ⟨rest.map (fun p => (d, p)), by simp [passSizes, h, attemptPairs]⟩
    · exact ⟨rest.map (fun p => (d, p)), by simp [passSizes, h, attemptPairs]⟩

theorem passDates_pairs (oracle : Nat → AttemptOutcome) (sizes : List Nat) :
    ∀ (dates : List Int) (k : Nat),
    ∃ t, attemptPairs (passDates oracle k dates sizes).1 ++ t = combos dates sizes ∧
      ((passDates oracle k dates sizes).2.2 = PassSignal.completed → t = []) := by
  intro dates
  induction dates with
  | nil => intro k; exact ⟨[], by simp [passDates, attemptPairs, combos]⟩
  | cons d rest ih =>
    intro k
    obtain ⟨t1, ht1, hc1⟩ := passSizes_pairs oracle d sizes k
    rcases hsig : (passSizes oracle d k sizes).2.2 with _ | tok | _ | _
    · obtain ⟨t2, ht2, hc2⟩ := ih (passSizes oracle d k sizes).2.1
      refine ⟨t2, ?_, ?_⟩
      · have h1 : attemptPairs (passSizes oracle d k sizes).1 = sizes.map (fun p => (d, p)) := by
          have := hc1 hsig
          subst this
          simpa using ht1
        simp only [passDates, hsig, combos, List.flatMap_cons]
        rw [attemptPairs, List.filterMap_append, ← attemptPairs, ← attemptPairs, h1,
          List.append_assoc, ht2]
        rfl
      · intro h2
        apply hc2
        simpa [passDates, hsig] using h2
    · refine ⟨t1 ++ combos rest sizes, ?_, ?_⟩
      · simp only [passDates, hsig, combos, List.flatMap_cons, ← List.append_assoc, ht1]
      · intro h2
        simp [passDates, hsig] at h2
    · refine ⟨t1 ++ combos rest sizes, ?_, ?_⟩
      · simp only [passDates, hsig, combos, List.flatMap_cons, ← List.append_assoc, ht1]
      · intro h2
        simp [passDates, hsig] at h2
    · refine ⟨t1 ++ combos rest sizes, ?_, ?_⟩
      · simp only [passDates, hsig, combos, List.flatMap_cons, ← List.append_assoc, ht1]
      · intro h2
        simp [passDates, hsig] at h2

theorem passSizes_serverErr_ends (oracle : Nat → AttemptOutcome) (d : Int) :
    ∀ (sizes : List Nat) (k : Nat),
    (passSizes oracle d k sizes).2.2 = PassSignal.serverErr →
    ∃ evs0 p, (passSizes oracle d k sizes).1 =
      evs0 ++ [Event.attempt d p AttemptOutcome.serverError] := by
  intro sizes
  induction sizes with
  | nil => intro k h; simp [passSizes] at h
  | cons p rest ih =>
    intro k h
    rcases ho : oracle k with tok | _ | _ | _
    · simp [passSizes, ho] at h
    · simp only [passSizes, ho] at h ⊢
      obtain ⟨evs0, p2, he⟩ := ih (k + 1) h
      exact ⟨Event.attempt d p AttemptOutcome.noSlots :: evs0, p2, by simp [he]⟩
    · exact ⟨[], p, by simp [passSizes, ho]⟩
    · simp [passSizes, ho] at h

theorem passSizes_otherErr_ends (oracle : Nat → AttemptOutcome) (d : Int) :
    ∀ (sizes : List Nat) (k : Nat),
    (passSizes oracle d k sizes).2.2 = PassSignal.otherErr →
    ∃ evs0 p, (passSizes oracle d k sizes).1 =
      evs0 ++ [Event.attempt d p AttemptOutcome.otherError] := by
  intro sizes
  induction sizes with
  | nil => intro k h; simp [passSizes] at h
  | cons p rest ih =>
    intro k h
    rcases ho : oracle k with tok | _ | _ | _
    · simp [passSizes, ho] at h
    · simp only [passSizes, ho] at h ⊢
      obtain ⟨evs0, p2, he⟩ := ih (k + 1) h
      exact ⟨Event.attempt d p AttemptOutcome.noSlots :: evs0, p2, by simp [he]⟩
    · simp [passSizes, ho] at h
    · exact ⟨[], p, by simp [passSizes, ho]⟩

theorem passDates_serverErr_ends (oracle : Nat → AttemptOutcome) (sizes : List Nat) :
    ∀ (dates : List Int) (k : Nat),
    (passDates oracle k dates sizes).2.2 = PassSignal.serverErr →
    ∃ evs0 d p, (passDates oracle k dates sizes).1 =
      evs0 ++ [Event.attempt d p AttemptOutcome.serverError] := by
  intro dates
  induction dates with
  | nil => intro k h; simp [passDates] at h
  | cons d rest ih =>
    intro k h
    rcases hsig : (passSizes oracle d k sizes).2.2 with _ | tok | _ | _
    · simp only [passDates, hsig] at h ⊢
      obtain ⟨evs0, d2, p2, he⟩ := ih (passSizes oracle d k sizes).2.1 h
      exact ⟨(passSizes oracle d k sizes).1 ++ evs0, d2, p2, by simp [he]⟩
    · simp [passDates, hsig] at h
    · simp only [passDates, hsig] at h ⊢
      obtain ⟨evs0, p2, he⟩ := passSizes_serverErr_ends oracle d sizes k hsig
      exact ⟨evs0, d, p2, he⟩
    · simp [passDates, hsig] at h

theorem passDates_otherErr_ends (oracle : Nat → AttemptOutcome) (sizes : List Nat) :
    ∀ (dates : List Int) (k : Nat),
    (passDates oracle k dates sizes).2.2 = PassSignal.otherErr →
    ∃ evs0 d p, (passDates oracle k dates sizes).1 =
      evs0 ++ [Event.attempt d p AttemptOutcome.otherError] := by
  intro dates
  induction dates with
  | nil => intro k h; simp [passDates] at h
  | cons d rest ih =>
    intro k h
    rcases hsig : (passSizes oracle d k sizes).2.2 with _ | tok | _ | _
    · simp only [passDates, hsig] at h ⊢
      obtain ⟨evs0, d2, p2, he⟩ := ih (passSizes oracle d k sizes).2.1 h
      exact ⟨(passSizes oracle d k sizes).1 ++ evs0, d2, p2, by simp [he]⟩
    · simp [passDates, hsig] at h
    · simp [passDates, hsig] at h
    · simp only [passDates, hsig] at h ⊢
      obtain ⟨evs0, p2, he⟩ := passSizes_otherErr_ends oracle d sizes k hsig
      exact ⟨evs0, d, p2, he⟩

theorem retryLoop_serverErr_step (oracle : Nat → AttemptOutcome) (n : Nat)
    (dates : List Int) (sizes : List Nat) (fuel k k2 retries : Nat) (evs : List Event)
    (hlt : retries < n)
    (hp : passDates oracle k dates sizes = (evs, k2, PassSignal.serverErr)) :
    retryLoop oracle n dates sizes (fuel + 1) k retries =
      (evs ++ Event.serverWait :: (retryLoop oracle n dates sizes fuel k2 retries).1,
       (retryLoop oracle n dates sizes fuel k2 retries).2) := by
  simp [retryLoop, hlt, hp]

theorem retryLoop_otherErr_step (oracle : Nat → AttemptOutcome) (n : Nat)
    (dates : List Int) (sizes : List Nat) (fuel k k2 retries : Nat) (evs : List Event)
    (hlt : retries < n)
    (hp : passDates oracle k dates sizes = (evs, k2, PassSignal.otherErr)) :
    retryLoop oracle n dates sizes (fuel + 1) k retries = (evs, RunOutcome.otherError) := by
  simp [retryLoop, hlt, hp]

theorem attemptPairs_attempt_map (d : Int) (o : AttemptOutcome) :
    ∀ sizes : List Nat,
    attemptPairs (sizes.map (fun p => Event.attempt d p o)) = sizes.map (fun p => (d, p)) := by
  intro sizes
  induction sizes with
  | nil => simp [attemptPairs]
  | cons p rest ih => simp [attemptPairs] at ih ⊢; exact ih

theorem attemptPairs_passEvents (sizes : List Nat) :
    ∀ dates : List Int, attemptPairs (passEvents dates sizes) = combos dates sizes := by
  intro dates
  induction dates with
  | nil => simp [passEvents, combos, attemptPairs]
  | cons d rest ih =>
    simp only [passEvents, combos, List.flatMap_cons] at ih ⊢
    rw [attemptPairs, List.filterMap_append, ← attemptPairs, ← attemptPairs, ih,
      attemptPairs_attempt_map]

/-- C2: a ResyServerError attempt abandons the remainder of the current pass
(the pass trace ends at the server-error attempt and its attempts are an
initial segment of the combination sequence), the fixed backoff sleep is
performed, and the loop restarts a fresh pass from the first combination with
the retries counter unchanged; concretely, with n_retries = 2 the outcome
script [serverError, serverError, noSlots, success] still ends in success. -/
theorem server_error_aborts_pass_and_is_free (oracle : Nat → AttemptOutcome)
    (n : Nat) (dates : List Int) (sizes : List Nat) (fuel k k2 retries : Nat)
    (evs : List Event) (hlt : retries < n)
    (hp : passDates oracle k dates sizes = (evs, k2, PassSignal.serverErr)) :
    (retryLoop oracle n dates sizes (fuel + 1) k retries =
      (evs ++ Event.serverWait :: (retryLoop oracle n dates sizes fuel k2 retries).1,
       (retryLoop oracle n dates sizes fuel k2 retries).2)) ∧
    (∃ t, attemptPairs evs ++ t = combos dates sizes) ∧
    (∃ evs0 d p, evs = evs0 ++ [Event.attempt d p AttemptOutcome.serverError]) ∧
    make_reservation_with_retries
        (seqOracle [AttemptOutcome.serverError, AttemptOutcome.serverError,
          AttemptOutcome.noSlots, AttemptOutcome.success "token123"])
        { seconds_between_retries := 1, n_retries := 2 } reqSingle 0 5 =
      ([Event.attempt 0 2 AttemptOutcome.serverError, Event.serverWait,
        Event.attempt 0 2 AttemptOutcome.serverError, Event.serverWait,
        Event.attempt 0 2 AttemptOutcome.noSlots, Event.interPassWait,
        Event.attempt 0 2 (AttemptOutcome.success "token123")],
       RunOutcome.ok "token123") := by
  refine ⟨retryLoop_serverErr_step oracle n dates sizes fuel k k2 retries evs hlt hp,
    ?_, ?_, by decide⟩
  · obtain ⟨t, ht, _⟩ := passDates_pairs oracle sizes dates k
    rw [hp] at ht
    exact ⟨t, ht⟩
  · have h2 : (passDates oracle k dates sizes).2.2 = PassSignal.serverErr := by rw [hp]
    obtain ⟨evs0, d, p, he⟩ := passDates_serverErr_ends oracle sizes dates k h2
    rw [hp] at he
    exact ⟨evs0, d, p, he⟩

/-- Witness for C2: a single-combination pass whose only attempt reports a
server error; the loop emits the backoff sleep and restarts with the same
retries counter. -/
theorem server_error_aborts_pass_and_is_free_witness :
    (0 : Nat) < 1 ∧
    passDates (fun _ => AttemptOutcome.serverError) 0 [(0 : Int)] [2] =
      ([Event.attempt 0 2 AttemptOutcome.serverError], 1, PassSignal.serverErr) ∧
    retryLoop (fun _ => AttemptOutcome.serverError) 1 [(0 : Int)] [2] 1 0 0 =
      ([Event.attempt 0 2 AttemptOutcome.serverError] ++ Event.serverWait ::
        (retryLoop (fun _ => AttemptOutcome.serverError) 1 [(0 : Int)] [2] 0 1 0).1,
       (retryLoop (fun _ => AttemptOutcome.serverError) 1 [(0 : Int)] [2] 0 1 0).2) :=
  ⟨by decide, by decide,
   (server_error_aborts_pass_and_is_free (fun _ => AttemptOutcome.serverError)
      1 [(0 : Int)] [2] 0 0 1 0 [Event.attempt 0 2 AttemptOutcome.serverError]
      (by decide) (by decide)).1⟩

/-- C3: within a single pass the (date, party size) combinations are
attempted in date-major order: every pass's attempted pairs are an initial
segment of the date-major combination sequence, a pass with no slots anywhere
attempts exactly that sequence, and for dates [D, D+1] with party sizes
[4, 2] the order is exactly (D,4), (D,2), (D+1,4), (D+1,2). -/
theorem pass_order_date_major :
    (∀ (oracle : Nat → AttemptOutcome) (k : Nat) (dates : List Int) (sizes : List Nat),
      ∃ t, attemptPairs (passDates oracle k dates sizes).1 ++ t = combos dates sizes) ∧
    (∀ (k : Nat) (dates : List Int) (sizes : List Nat),
      attemptPairs (passDates (fun _ => AttemptOutcome.noSlots) k dates sizes).1 =
        combos dates sizes) ∧
    (∀ D : Int, combos [D, D + 1] [4, 2] = [(D, 4), (D, 2), (D + 1, 4), (D + 1, 2)]) := by
  refine ⟨?_, ?_, ?_⟩
  · intro oracle k dates sizes
    obtain ⟨t, ht, _⟩ := passDates_pairs oracle sizes dates k
    exact ⟨t, ht⟩
  · intro k dates sizes
    rw [passDates_noSlots]
    exact attemptPairs_passEvents sizes dates
  · intro D
    simp [combos]

/-- C7: an attempt outcome other than no-slots and server-error terminates
make_reservation_with_retries immediately: the pass trace ends at that very
attempt (an initial segment of the combination sequence with the failing
attempt last), the loop returns the propagated error with no backoff, no
inter-pass sleep and no further pass; concretely with outcomes
[noSlots, otherError] on combinations (0,4), (0,2) and n_retries = 5, the
run stops after those two attempts. -/
theorem other_error_propagates_terminally (oracle : Nat → AttemptOutcome)
    (n : Nat) (dates : List Int) (sizes : List Nat) (fuel k k2 retries : Nat)
    (evs : List Event) (hlt : retries < n)
    (hp : passDates oracle k dates sizes = (evs, k2, PassSignal.otherErr)) :
    retryLoop oracle n dates sizes (fuel + 1) k retries = (evs, RunOutcome.otherError) ∧
    (∃ t, attemptPairs evs ++ t = combos dates sizes) ∧
    (∃ evs0 d p, evs = evs0 ++ [Event.attempt d p AttemptOutcome.otherError]) ∧
    make_reservation_with_retries
        (seqOracle [AttemptOutcome.noSlots, AttemptOutcome.otherError])
        { seconds_between_retries := 1, n_retries := 5 } reqTwoSizes 0 5 =
      ([Event.attempt 0 4 AttemptOutcome.noSlots,
        Event.attempt 0 2 AttemptOutcome.otherError],
       RunOutcome.otherError) := by
  refine ⟨retryLoop_otherErr_step oracle n dates sizes fuel k k2 retries evs hlt hp,
    ?_, ?_, by decide⟩
  · obtain ⟨t, ht, _⟩ := passDates_pairs oracle sizes dates k
    rw [hp] at ht
    exact ⟨t, ht⟩
  · have h2 : (passDates oracle k dates sizes).2.2 = PassSignal.otherErr := by rw [hp]
    obtain ⟨evs0, d, p, he⟩ := passDates_otherErr_ends oracle sizes dates k h2
    rw [hp] at he
    exact ⟨evs0, d, p, he⟩

/-- Witness for C7: a single-combination pass whose only attempt reports an
unclassified error; the loop returns it as terminal. -/
theorem other_error_propagates_terminally_witness :
    (0 : Nat) < 1 ∧
    passDates (fun _ => AttemptOutcome.otherError) 0 [(0 : Int)] [2] =
      ([Event.attempt 0 2 AttemptOutcome.otherError], 1, PassSignal.otherErr) ∧
    retryLoop (fun _ => AttemptOutcome.otherError) 1 [(0 : Int)] [2] 1 0 0 =
      ([Event.attempt 0 2 AttemptOutcome.otherError], RunOutcome.otherError) :=
  ⟨by decide, by decide,
   (other_error_propagates_terminally (fun _ => AttemptOutcome.otherError)
      1 [(0 : Int)] [2] 0 0 1 0 [Event.attempt 0 2 AttemptOutcome.otherError]
      (by decide) (by decide)).1⟩

/-- C4: the precomputed search space matches its reference definition: with a
date_range of n ≥ 1 the date list has exactly n entries and its i-th entry is
the primary target date plus i days (consecutive, ascending, starting at the
primary date); with date_range absent it is exactly the singleton primary
date; the party-size list is exactly the primary size followed by the
fallback sizes in the order given, with no deduplication or reordering. -/
theorem search_space_reference (r : ReservationRequest) (today : Int) :
    (∀ n : Nat, r.date_range = some n → 1 ≤ n →
      ((get_dates_to_try r today).length = n ∧
       ∀ i : Nat, i < n →
         (get_dates_to_try r today)[i]? = some (target_date r today + (i : Int)))) ∧
    (r.date_range = none → get_dates_to_try r today = [target_date r today]) ∧
    get_party_sizes_to_try r = r.party_size :: r.fallback_party_sizes.getD [] := by
  refine ⟨?_, ?_, ?_⟩
  · intro n hn h1
    have hne : ¬ n = 0 := by omega
    constructor
    · simp only [get_dates_to_try, hn, if_neg hne, List.length_map, List.length_range]
    · intro i hi
      simp only [get_dates_to_try, hn, if_neg hne, List.getElem?_map, List.getElem?_range hi,
        Option.map_some']
  · intro hn
    simp [get_dates_to_try, hn, List.range_succ]
  · rcases hf : r.fallback_party_sizes with _ | l
    · simp [get_party_sizes_to_try, hf]
    · cases l with
      | nil => simp [get_party_sizes_to_try, hf]
      | cons a t => simp [get_party_sizes_to_try, hf]

/-- Witness for C4 at a request with date_range = 3 and primary date 10. -/
theorem search_space_reference_witness :
    reqRange.date_range = some 3 ∧ (1 : Nat) ≤ 3 ∧
    (get_dates_to_try reqRange 0).length = 3 ∧
    (get_dates_to_try reqRange 0)[1]? = some (target_date reqRange 0 + 1) :=
  ⟨rfl, by decide,
   ((search_space_reference reqRange 0).1 3 rfl (by decide)).1,
   by simpa using ((search_space_reference reqRange 0).1 3 rfl (by decide)).2 1 (by decide)⟩

/-- C5: _with_overrides returns a new request whose ideal_date is the given
date, whose party_size is the given size and whose days_in_advance is
cleared, while every other field equals the corresponding field of the
original; the original value itself is untouched (all values are immutable in
the embedding, and the frame conditions pin every remaining field to the
original's). -/
theorem with_overrides_frame (r : ReservationRequest) (d : Int) (p : Nat) :
    (with_overrides r d p).ideal_date = d ∧
    (with_overrides r d p).party_size = p ∧
    (with_overrides r d p).days_in_advance = none ∧
    (with_overrides r d p).venue_id = r.venue_id ∧
    (with_overrides r d p).ideal_hour = r.ideal_hour ∧
    (with_overrides r d p).ideal_minute = r.ideal_minute ∧
    (with_overrides r d p).date_range = r.date_range ∧
    (with_overrides r d p).fallback_party_sizes = r.fallback_party_sizes := by
  simp [with_overrides]

theorem passSizes_head_attempt (oracle : Nat → AttemptOutcome) (d : Int) (k p : Nat)
    (rest : List Nat) :
    ∃ o evs2, (passSizes oracle d k (p :: rest)).1 = Event.attempt d p o :: evs2 := by
  rcases ho : oracle k with tok | _ | _ | _
  · exact ⟨AttemptOutcome.success tok, [], by simp [passSizes, ho]⟩
  · exact ⟨AttemptOutcome.noSlots, (passSizes oracle d (k + 1) rest).1,
      by simp [passSizes, ho]⟩
  · exact ⟨AttemptOutcome.serverError, [], by simp [passSizes, ho]⟩
  · exact ⟨AttemptOutcome.otherError, [], by simp [passSizes, ho]⟩

theorem passDates_cons_events (oracle : Nat → AttemptOutcome) (d : Int) (k : Nat)
    (rest : List Int) (sizes : List Nat) :
    ∃ t, (passDates oracle k (d :: rest) sizes).1 = (passSizes oracle d k sizes).1 ++ t := by
  rcases hsig : (passSizes oracle d k sizes).2.2 with _ | tok | _ | _
  · exact ⟨(passDates oracle (passSizes oracle d k sizes).2.1 rest sizes).1,
      by simp [passDates, hsig]⟩
  · exact ⟨[], by simp [passDates, hsig]⟩
  · exact ⟨[], by simp [passDates, hsig]⟩
  · exact ⟨[], by simp [passDates, hsig]⟩

theorem get_party_sizes_cons (r : ReservationRequest) :
    ∃ t, get_party_sizes_to_try r = r.party_size :: t := by
  rcases hf : r.fallback_party_sizes with _ | l
  · exact ⟨[], by simp [get_party_sizes_to_try, hf]⟩
  · cases l with
    | nil => exact ⟨[], by simp [get_party_sizes_to_try, hf]⟩
    | cons a t => exact ⟨a :: t, by simp [get_party_sizes_to_try, hf]⟩

/-- C10: the search space is never empty: the date list always has at least
one entry, a date_range of 0 behaves exactly like an absent date_range
(yielding the singleton primary date), the party-size list always starts
with the primary party size, and consequently every pass of the retry loop
performs at least one acquisition attempt, whatever the attempt outcomes. -/
theorem search_space_nonempty :
    (∀ (r : ReservationRequest) (today : Int), 1 ≤ (get_dates_to_try r today).length) ∧
    (∀ (r : ReservationRequest) (today : Int),
      get_dates_to_try { r with date_range := some 0 } today =
        get_dates_to_try { r with date_range := none } today ∧
      get_dates_to_try { r with date_range := some 0 } today = [target_date r today]) ∧
    (∀ r : ReservationRequest, (get_party_sizes_to_try r).head? = some r.party_size) ∧
    (∀ (oracle : Nat → AttemptOutcome) (k : Nat) (r : ReservationRequest) (today : Int),
      1 ≤ countAttempts
        (passDates oracle k (get_dates_to_try r today) (get_party_sizes_to_try r)).1) := by
  have hlen : ∀ (r : ReservationRequest) (today : Int),
      1 ≤ (get_dates_to_try r today).length := by
    intro r today
    rcases hn : r.date_range with _ | n
    · simp only [get_dates_to_try, hn, List.length_map, List.length_range]
      omega
    · rcases Nat.eq_zero_or_pos n with h0 | h0
      · subst h0
        simp [get_dates_to_try, hn]
      · have hne : ¬ n = 0 := by omega
        simp only [get_dates_to_try, hn, if_neg hne, List.length_map, List.length_range]
        omega
  refine ⟨hlen, ?_, ?_, ?_⟩
  · intro r today
    constructor
    · simp [get_dates_to_try, target_date]
    · simp [get_dates_to_try, target_date, List.range_succ]
  · intro r
    obtain ⟨t, ht⟩ := get_party_sizes_cons r
    simp [ht]
  · intro oracle k r today
    have h1 := hlen r today
    rcases hd : get_dates_to_try r today with _ | ⟨d, restD⟩
    · rw [hd] at h1; simp at h1
    · obtain ⟨tp, htp⟩ := get_party_sizes_cons r
      obtain ⟨t, ht⟩ := passDates_cons_events oracle d k restD (get_party_sizes_to_try r)
      obtain ⟨o, evs2, hh⟩ := passSizes_head_attempt oracle d k r.party_size tp
      rw [ht, htp, hh, countAttempts_append]
      simp [countAttempts, isAttemptEvent]
      omega

/-- C6: make_reservation raises NoSlotsError exactly when the transport's
slot search returns an empty list; on a non-empty list it invokes the
collaborators in the order find, select (with the full slot list and the
request), fetch booking token for the selection, book with that token, and
returns the token produced by the booking call. -/
theorem make_reservation_steps (api : ApiAccess) (sel : Selector) (c : ResyConfig)
    (today : Int) (r : ReservationRequest) (slots : List Slot)
    (hf : api.find_booking_slots (build_find_request_body r today) = Except.ok slots) :
    ((make_reservation api sel c today r).2 = Except.error MgrErr.noSlots ↔ slots = []) ∧
    (∀ (tok : DetailsResponseBody) (resy_token : String),
      slots ≠ [] →
      api.get_booking_token (build_get_slot_details_body r today (sel slots r)) =
        Except.ok tok →
      api.book_slot (build_book_request_body tok c) = Except.ok resy_token →
      make_reservation api sel c today r =
        ([CallEvent.findCall (build_find_request_body r today),
          CallEvent.selectCall slots r,
          CallEvent.detailsCall (build_get_slot_details_body r today (sel slots r)),
          CallEvent.bookCall (build_book_request_body tok c)],
         Except.ok resy_token)) := by
  by_cases hs : slots = []
  · subst hs
    constructor
    · simp [make_reservation, hf]
    · intro tok resy_token hne
      exact absurd rfl hne
  · have hlen : ¬ slots.length = 0 := by
      simpa [List.length_eq_zero] using hs
    constructor
    · rcases hg : api.get_booking_token (build_get_slot_details_body r today (sel slots r))
        with e | tok2
      · simp [make_reservation, hf, hlen, hg, hs]
      · rcases hb : api.book_slot (build_book_request_body tok2 c) with e | resy2
        · simp [make_reservation, hf, hlen, hg, hb, hs]
        · simp [make_reservation, hf, hlen, hg, hb, hs]
    · intro tok resy_token hne hg hb
      simp [make_reservation, hf, hlen, hg, hb]

/-- Witness for C6: with an all-success transport the booking pipeline runs
find, select, details, book in order and returns the booked token. -/
theorem make_reservation_steps_witness :
    apiW.find_booking_slots (build_find_request_body reqSingle 0) = Except.ok [slotW] ∧
    [slotW] ≠ ([] : List Slot) ∧
    make_reservation apiW selW configW 0 reqSingle =
      ([CallEvent.findCall (build_find_request_body reqSingle 0),
        CallEvent.selectCall [slotW] reqSingle,
        CallEvent.detailsCall (build_get_slot_details_body reqSingle 0 (selW [slotW] reqSingle)),
        CallEvent.bookCall
          (build_book_request_body { book_token := { value := "btok" } } configW)],
       Except.ok "resytok") :=
  ⟨rfl, by decide,
   (make_reservation_steps apiW selW configW 0 reqSingle [slotW] rfl).2
     { book_token := { value := "btok" } } "resytok" (by decide) rfl rfl⟩

theorem openingLoopAux_some_ge (clock : Nat → Int) (drop : Int) :
    ∀ (fuel j i : Nat), openingLoopAux clock drop fuel j = some i → drop ≤ clock i := by
  intro fuel
  induction fuel with
  | zero => intro j i h; simp [openingLoopAux] at h
  | succ fuel ih =>
    intro j i h
    by_cases hc : clock j < drop
    · simp only [openingLoopAux, if_pos hc] at h
      exact ih (j + 1) i h
    · simp only [openingLoopAux, if_neg hc, Option.some.injEq] at h
      subst h
      omega

/-- C8: the computed deadline is today (the day of the invocation-time clock
sample) at the expected drop hour and minute minus the fixed early-start
offset; the retry orchestration is never started at a clock sample before
that deadline; and when the deadline is already past at invocation the loop
proceeds at the very first sample, without suspending. -/
theorem drop_time_gate (r : TimedReservationRequest) (now : Int) (clock : Nat → Int)
    (fuel i : Nat) :
    todayAt now r.expected_drop_hour r.expected_drop_minute - get_drop_time r now =
      EARLY_START_SECONDS ∧
    (opening_time_start_index clock r fuel = some i →
      get_drop_time r (clock 0) ≤ clock i) ∧
    (get_drop_time r (clock 0) ≤ clock 0 →
      opening_time_start_index clock r (fuel + 1) = some 0) := by
  refine ⟨?_, ?_, ?_⟩
  · simp [get_drop_time]
  · intro h
    exact openingLoopAux_some_ge clock (get_drop_time r (clock 0)) fuel 0 i h
  · intro h
    have hc : ¬ clock 0 < get_drop_time r (clock 0) := by omega
    simp [opening_time_start_index, openingLoopAux, if_neg hc]

/-- Witness for C8: with the drop expected today at 00:01 and clock samples
57, 58, ... the loop proceeds at sample 1, which is not before the deadline;
with the deadline already past, the loop proceeds at sample 0. -/
theorem drop_time_gate_witness :
    todayAt 57 timedA.expected_drop_hour timedA.expected_drop_minute -
        get_drop_time timedA 57 = EARLY_START_SECONDS ∧
    opening_time_start_index (fun j => (57 : Int) + (j : Int)) timedA 2 = some 1 ∧
    get_drop_time timedA ((57 : Int) + ((0 : Nat) : Int)) ≤ (57 : Int) + ((1 : Nat) : Int) ∧
    get_drop_time timedB 0 ≤ (0 : Int) ∧
    opening_time_start_index (fun _ => (0 : Int)) timedB 3 = some 0 :=
  ⟨(drop_time_gate timedA 57 (fun j => (57 : Int) + (j : Int)) 2 1).1,
   by decide,
   (drop_time_gate timedA 57 (fun j => (57 : Int) + (j : Int)) 2 1).2.1 (by decide),
   by decide,
   (drop_time_gate timedB 0 (fun _ => (0 : Int)) 2 0).2.2 (by decide)⟩

/-- C9: run_watchlist processes every watchlist entry and hands control back
only when all workers are done: the notification list has exactly one entry
per watchlist entry, in entry order; the i-th notification is computed from
the i-th entry alone (so one worker's failure cannot alter or cancel
another's result); and a worker's notification is tagged success exactly
when its own pipeline returned a token, any pipeline error being contained
to a failure notification for that entry. -/
theorem watchlist_full_join (pipeline : TimedReservationRequest → Except String String)
    (w : Watchlist) :
    (run_watchlist pipeline w).length = w.venues.length ∧
    (∀ i : Nat,
      (run_watchlist pipeline w)[i]? = (w.venues[i]?).map (run_single_venue pipeline)) ∧
    (∀ e : WatchlistEntry,
      ((run_single_venue pipeline e).success = true ↔
        ∃ tok, pipeline e.to_timed_request = Except.ok tok) ∧
      (run_single_venue pipeline e).venue_tag = venue_tag_of e) := by
  refine ⟨by simp [run_watchlist], ?_, ?_⟩
  · intro i
    simp [run_watchlist, List.getElem?_map]
  · intro e
    constructor
    · rcases hp : pipeline e.to_timed_request with msg | tok
      · simp [run_single_venue, hp]
      · simp [run_single_venue, hp]
    · rcases hp : pipeline e.to_timed_request with msg | tok
      · simp [run_single_venue, hp]
      · simp [run_single_venue, hp]
